import Mathlib

set_option linter.unusedVariables false
set_option linter.unnecessarySeqFocus false

/-!
# Verification of the posacs POSIX-environment bindings (src/posacs-module.c)

A shallow embedding of the module's three host-callable operations
(`posacs_getenv`, `posacs_setenv`, `posacs_unsetenv`), its string-marshaling
helper (`string_from_lisp`), and its load-time registration entry point
(`emacs_module_init`, `bind_func`).

Host (Emacs) values are modelled by `LispVal`; the mutable world visible to
the module — the process environment table, the host's pending non-local
exit, the set of live `malloc` buffers, and fault-injection switches for the
host string-copy primitive and the allocator — is the explicit state
`HostState` threaded through every operation.
-/

namespace Posacs

/-- Host values as the module distinguishes them: strings, integers and
interned symbols (`nil`, `t`, `memory-full`, ...).  The module inspects
values only through the host's type-of primitive, modelled by the
constructor. -/
inductive LispVal where
  | str : String → LispVal
  | int : Int → LispVal
  | sym : String → LispVal
deriving DecidableEq

/-- The host `nil` symbol (`LISP_NIL` in the source). -/
def LISP_NIL : LispVal := LispVal.sym "nil"

/-- The host `t` symbol (`LISP_T` in the source). -/
def LISP_T : LispVal := LispVal.sym "t"

/-- The `LISP_IS_STRING` macro: `type_of val` is the `string` symbol. -/
def LISP_IS_STRING : LispVal → Bool
  | LispVal.str _ => true
  | _ => false

/-- The world state threaded through each module call:
`envv` is the process environment table (association list, first match wins,
as `getenv` searches `environ`); `pendingExit` is the host's pending
non-local exit (symbol and payload), set by `non_local_exit_signal`;
`live` records the ids of `malloc` buffers not yet `free`d and `nextId` the
next fresh buffer id; `copyOk1`, `allocOk`, `copyOk2` are fault-injection
switches for the two `copy_string_contents` calls and the `malloc` call
inside `string_from_lisp`. -/
structure HostState where
  envv : List (String × String)
  pendingExit : Option (String × LispVal)
  live : List Nat
  nextId : Nat
  copyOk1 : Bool
  allocOk : Bool
  copyOk2 : Bool
deriving DecidableEq

/-- A POSIX environment-variable name is valid when it is nonempty and
contains no equals sign (POSIX `setenv`/`unsetenv` fail with `EINVAL`
otherwise). -/
def validName (k : String) : Bool :=
  k ≠ "" && !(k.toList.contains '=')

/-- First-match lookup in the environment table: model of libc `getenv`. -/
def getenvP : List (String × String) → String → Option String
  | [], _ => none
  | (k1, v1) :: rest, k => if k1 = k then some v1 else getenvP rest k

/-- Replace the first binding of `k`, or append one: the effect of libc
`setenv (k, v, 1)` on the environment table when it succeeds. -/
def envInsert : List (String × String) → String → String → List (String × String)
  | [], k, v => [(k, v)]
  | (k1, v1) :: rest, k, v =>
    if k1 = k then (k, v) :: rest else (k1, v1) :: envInsert rest k v

/-- Remove every binding of `k`: the effect of libc `unsetenv (k)` when it
succeeds. -/
def envRemove : List (String × String) → String → List (String × String)
  | [], _ => []
  | (k1, v1) :: rest, k =>
    if k1 = k then envRemove rest k else (k1, v1) :: envRemove rest k

/-- Model of libc `setenv (k, v, 1)` (overwrite flag set): `none` is the
`-1`/`EINVAL` failure on an invalid name, `some` the updated table. -/
def setenvP (e : List (String × String)) (k v : String) : Option (List (String × String)) :=
  if validName k then some (envInsert e k v) else none

/-- Model of libc `unsetenv (k)`: `none` is `-1`/`EINVAL` on an invalid
name, `some` the updated table (success also when `k` was absent). -/
def unsetenvP (e : List (String × String)) (k : String) : Option (List (String × String)) :=
  if validName k then some (envRemove e k) else none

/-- `string_from_lisp`: copy a host string out into an owned `malloc`
buffer.  First `copy_string_contents` queries the size (fails for
non-strings or when the host copy primitive fails → return null, no state
change); then `malloc` (on failure, signal the `memory-full` non-local exit
with `nil` payload and return null); then the filling
`copy_string_contents` (on failure, `free (str)` — net effect: the id was
consumed but the buffer is not live — and return null).  On success the
returned buffer (id, contents) is owned by the caller and stays in `live`
until freed. -/
def string_from_lisp (st : HostState) (val : LispVal) : Option (Nat × String) × HostState :=
  match val with
  | LispVal.str s =>
    if st.copyOk1 then
      if st.allocOk then
        if st.copyOk2 then
          (some (st.nextId, s),
           { st with live := st.live ++ [st.nextId], nextId := st.nextId + 1 })
        else
          (none, { st with nextId := st.nextId + 1 })
      else
        (none, { st with pendingExit := some ("memory-full", LISP_NIL) })
    else (none, st)
  | _ => (none, st)

/-- `posacs_getenv` (bound as `posacs--getenv`).  `n` (nargs) and `p` (the
opaque data pointer) are received and ignored, as in the source
(`(void)n; (void)ptr;`).  Note the source's outer `char *var = NULL` is
shadowed by the inner `char *var = string_from_lisp (...)`, so the trailing
`if (var) free (var)` tests the outer null pointer and frees nothing: the
marshaled buffer remains live.  Returns the looked-up value as a fresh host
string, or `nil`. -/
def posacs_getenv (st : HostState) (n : Int) (args : Nat → LispVal) (p : Int) :
    LispVal × HostState :=
  if LISP_IS_STRING (args 0) then
    match string_from_lisp st (args 0) with
    | (some (_id, var), st1) =>
      (match getenvP st1.envv var with
       | some v => LispVal.str v
       | none => LISP_NIL, st1)
    | (none, st1) => (LISP_NIL, st1)
  else (LISP_NIL, st)

/-- `posacs_setenv` (bound as `posacs--setenv`).  Checks `args[0]` is a
string, marshals it, then checks `args[1]` is a string, marshals it, then
calls `setenv (var, val, 1)`; returns `t` exactly when `setenv` reports
success.  As in `posacs_getenv`, the inner `var`/`val` shadow the outer
null pointers, so the trailing frees free nothing and both marshaled
buffers remain live. -/
def posacs_setenv (st : HostState) (n : Int) (args : Nat → LispVal) (p : Int) :
    LispVal × HostState :=
  if LISP_IS_STRING (args 0) then
    match string_from_lisp st (args 0) with
    | (some (_vid, var), st1) =>
      if LISP_IS_STRING (args 1) then
        match string_from_lisp st1 (args 1) with
        | (some (_lid, val), st2) =>
          match setenvP st2.envv var val with
          | some e2 => (LISP_T, { st2 with envv := e2 })
          | none => (LISP_NIL, st2)
        | (none, st2) => (LISP_NIL, st2)
      else (LISP_NIL, st1)
    | (none, st1) => (LISP_NIL, st1)
  else (LISP_NIL, st)

/-- `posacs_unsetenv` (bound as `posacs--unsetenv`).  Marshals the name and
calls `unsetenv (var)`; returns `t` exactly when `unsetenv` reports
success.  The same shadowing as in the other two operations leaves the
marshaled buffer live. -/
def posacs_unsetenv (st : HostState) (n : Int) (args : Nat → LispVal) (p : Int) :
    LispVal × HostState :=
  if LISP_IS_STRING (args 0) then
    match string_from_lisp st (args 0) with
    | (some (_id, var), st1) =>
      match unsetenvP st1.envv var with
      | some e1 => (LISP_T, { st1 with envv := e1 })
      | none => (LISP_NIL, st1)
    | (none, st1) => (LISP_NIL, st1)
  else (LISP_NIL, st)

/-- The three C function pointers exported by the module, as abstract
tags. -/
inductive ModFun where
  | getenvF
  | setenvF
  | unsetenvF
deriving DecidableEq

/-- What `make_function` packages and `fset` binds under a symbol: the
arity bounds, the function pointer, and the docstring (the trailing data
pointer is the constant `0` in the source and is omitted). -/
structure Binding where
  min_arity : Int
  max_arity : Int
  fn : ModFun
  docstring : String
deriving DecidableEq

/-- The host's global function namespace: symbol name to function
binding. -/
abbrev GlobalNS : Type := List (String × Binding)

/-- Model of the host `fset` primitive: rebind `name`, or append a new
binding. -/
def fsetModel : GlobalNS → String → Binding → GlobalNS
  | [], name, b => [(name, b)]
  | (n1, b1) :: rest, name, b =>
    if n1 = name then (name, b) :: rest else (n1, b1) :: fsetModel rest name b

/-- Lookup in the global function namespace (first match). -/
def nsLookup : GlobalNS → String → Option Binding
  | [], _ => none
  | (n1, b1) :: rest, name => if n1 = name then some b1 else nsLookup rest name

/-- `bind_func`: build the function value via `make_function` and call the
host's `fset` on `(name, function)`. -/
def bind_func (ns : GlobalNS) (name : String) (min max : Int) (function : ModFun)
    (docstring : String) : GlobalNS :=
  fsetModel ns name ⟨min, max, function, docstring⟩

/-- One row of the `struct fun funcs[]` table. -/
structure ModuleFunRow where
  name : String
  min_arity : Int
  max_arity : Int
  function : ModFun
  docstring : String

/-- The fixed registration table (the `NULL` sentinel row terminates the C
loop and is represented by the end of the list). -/
def funcs : List ModuleFunRow :=
  [⟨"posacs--getenv", 1, 1, ModFun.getenvF, "getenv internal"⟩,
   ⟨"posacs--setenv", 2, 2, ModFun.setenvF, "setenv internal"⟩,
   ⟨"posacs--unsetenv", 1, 1, ModFun.unsetenvF, "unsetenv internal"⟩]

/-- `emacs_module_init`: checks the outer runtime handle size against
`sizeof (*runtime)` (return 1 when too small), then the environment handle
size against `sizeof (*env)` (return 2), then walks `funcs` binding each
row with `bind_func` and returns 0.  The two `sizeof` compile-time
constants are parameters `sizeofRuntime` and `sizeofEnv`. -/
def emacs_module_init (runtimeSize sizeofRuntime envSize sizeofEnv : Nat)
    (ns : GlobalNS) : Nat × GlobalNS :=
  if runtimeSize < sizeofRuntime then (1, ns)
  else if envSize < sizeofEnv then (2, ns)
  else
    (0, funcs.foldl
      (fun acc f => bind_func acc f.name f.min_arity f.max_arity f.function f.docstring)
      ns)

/-! ## Helper lemmas about the environment-table and namespace models -/

theorem getenvP_envInsert (e : List (String × String)) (k v : String) :
    getenvP (envInsert e k v) k = some v := by
  induction e with
  | nil => simp [envInsert, getenvP]
  | cons hd tl ih =>
    obtain ⟨k1, v1⟩ := hd
    by_cases h : k1 = k <;> simp [envInsert, getenvP, h, ih]

theorem getenvP_envRemove (e : List (String × String)) (k : String) :
    getenvP (envRemove e k) k = none := by
  induction e with
  | nil => rfl
  | cons hd tl ih =>
    obtain ⟨k1, v1⟩ := hd
    by_cases h : k1 = k <;> simp [envRemove, getenvP, h, ih]

theorem getenvP_invalid (e : List (String × String)) (k : String)
    (hwf : ∀ q ∈ e, validName q.1 = true) (hk : validName k = false) :
    getenvP e k = none := by
  induction e with
  | nil => rfl
  | cons hd tl ih =>
    obtain ⟨k1, v1⟩ := hd
    have h1 : validName k1 = true := hwf (k1, v1) (by simp)
    have hne : k1 ≠ k := by
      rintro rfl
      rw [h1] at hk
      cases hk
    simp only [getenvP, if_neg hne]
    exact ih fun q hq => hwf q (List.mem_cons_of_mem _ hq)

theorem nsLookup_fsetModel_same (ns : GlobalNS) (name : String) (b : Binding) :
    nsLookup (fsetModel ns name b) name = some b := by
  induction ns with
  | nil => simp [fsetModel, nsLookup]
  | cons hd tl ih =>
    obtain ⟨n1, b1⟩ := hd
    by_cases h : n1 = name <;> simp [fsetModel, nsLookup, h, ih]

theorem nsLookup_fsetModel_other (ns : GlobalNS) (name m : String) (b : Binding)
    (h : m ≠ name) : nsLookup (fsetModel ns name b) m = nsLookup ns m := by
  induction ns with
  | nil =>
    simp only [fsetModel, nsLookup]
    rw [if_neg fun hh => h hh.symm]
  | cons hd tl ih =>
    obtain ⟨n1, b1⟩ := hd
    by_cases h1 : n1 = name
    · simp only [fsetModel, if_pos h1, nsLookup]
      rw [if_neg fun hh => h hh.symm, if_neg fun hh => h (hh.symm.trans h1)]
    · simp only [fsetModel, if_neg h1, nsLookup]
      by_cases h2 : n1 = m
      · rw [if_pos h2, if_pos h2]
      · rw [if_neg h2, if_neg h2, ih]

/-- When the looked-up name is absent from the environment table,
`posacs_getenv` yields `nil` — whatever the fault-injection switches do. -/
theorem posacs_getenv_none (st : HostState) (n p : Int) (args : Nat → LispVal) (k : String)
    (h0 : args 0 = LispVal.str k) (hk : getenvP st.envv k = none) :
    (posacs_getenv st n args p).1 = LISP_NIL := by
  obtain ⟨e, pe, lv, ni, c1, a, c2⟩ := st
  cases c1 <;> cases a <;> cases c2 <;>
    simp_all [posacs_getenv, string_from_lisp, LISP_IS_STRING]

/-- Round-trip: when `posacs_setenv` reports `t`, an immediately following
`posacs_getenv` on the same name yields exactly the value that was set. -/
theorem setenv_t_getenv (st : HostState) (n np p pp : Int) (args args1 : Nat → LispVal)
    (k v : String) (h0 : args 0 = LispVal.str k) (h1 : args 1 = LispVal.str v)
    (h2 : args1 0 = LispVal.str k)
    (ht : (posacs_setenv st n args p).1 = LISP_T) :
    (posacs_getenv (posacs_setenv st n args p).2 np args1 pp).1 = LispVal.str v := by
  obtain ⟨e, pe, lv, ni, c1, a, c2⟩ := st
  by_cases hv : validName k
  · cases c1 <;> cases a <;> cases c2 <;>
      simp_all [posacs_setenv, posacs_getenv, string_from_lisp, setenvP, LISP_IS_STRING,
                LISP_T, LISP_NIL, getenvP_envInsert, hv]
  · cases c1 <;> cases a <;> cases c2 <;>
      simp_all [posacs_setenv, string_from_lisp, setenvP, LISP_IS_STRING, LISP_T,
                LISP_NIL, hv]

/-- `posacs_setenv` never changes the fault-injection switches: they
describe the host and allocator, not the module. -/
theorem posacs_setenv_flags (st : HostState) (n p : Int) (args : Nat → LispVal) :
    (posacs_setenv st n args p).2.copyOk1 = st.copyOk1 ∧
    (posacs_setenv st n args p).2.allocOk = st.allocOk ∧
    (posacs_setenv st n args p).2.copyOk2 = st.copyOk2 := by
  obtain ⟨e, pe, lv, ni, c1, a, c2⟩ := st
  cases h0 : args 0 <;> cases h1 : args 1 <;> cases c1 <;> cases a <;> cases c2 <;>
    simp_all [posacs_setenv, string_from_lisp, LISP_IS_STRING, setenvP] <;>
    split <;> simp

/-- With a valid name, both arguments strings, and no injected host or
allocator fault, `posacs_setenv` reports success (`t`). -/
theorem setenv_succeeds (st : HostState) (n p : Int) (args : Nat → LispVal) (k v : String)
    (h0 : args 0 = LispVal.str k) (h1 : args 1 = LispVal.str v)
    (hv : validName k = true) (hc1 : st.copyOk1 = true) (ha : st.allocOk = true)
    (hc2 : st.copyOk2 = true) :
    (posacs_setenv st n args p).1 = LISP_T := by
  obtain ⟨e, pe, lv, ni, c1, a, c2⟩ := st
  simp_all [posacs_setenv, string_from_lisp, LISP_IS_STRING, setenvP]

/-- After `posacs_unsetenv` on any name (valid or not, assuming a
well-formed environment table and no injected fault), `posacs_getenv` on
that name yields `nil`. -/
theorem unsetenv_getenv_nil (st : HostState) (n np p pp : Int) (args args1 : Nat → LispVal)
    (k : String) (h0 : args 0 = LispVal.str k) (h2 : args1 0 = LispVal.str k)
    (hwf : ∀ q ∈ st.envv, validName q.1 = true)
    (hc1 : st.copyOk1 = true) (ha : st.allocOk = true) (hc2 : st.copyOk2 = true) :
    (posacs_getenv (posacs_unsetenv st n args p).2 np args1 pp).1 = LISP_NIL := by
  obtain ⟨e, pe, lv, ni, c1, a, c2⟩ := st
  by_cases hv : validName k
  · simp_all [posacs_unsetenv, posacs_getenv, string_from_lisp, unsetenvP, LISP_IS_STRING,
              getenvP_envRemove]
  · have hv2 : validName k = false := by simpa using hv
    have hnone : getenvP e k = none := getenvP_invalid e k hwf hv2
    simp_all [posacs_unsetenv, posacs_getenv, string_from_lisp, unsetenvP, LISP_IS_STRING]

/-! ## Concrete worlds for witnesses and counterexamples -/

/-- A fresh world: empty environment table, no pending non-local exit, no
live buffers, all host primitives and the allocator succeeding. -/
def st0 : HostState :=
  { envv := [], pendingExit := none, live := [], nextId := 0,
    copyOk1 := true, allocOk := true, copyOk2 := true }

/-- A world whose environment already binds `FOO` to `bar`. -/
def stFOO : HostState :=
  { envv := [("FOO", "bar")], pendingExit := none, live := [], nextId := 0,
    copyOk1 := true, allocOk := true, copyOk2 := true }

/-! ## The claims -/

/-- C1: the spec states that every marshaled buffer is freed before the
invocation returns on every path.  The code violates this: the inner
`char *var` (and `char *val`) declarations shadow the outer null pointers
tested by the trailing `if (var) free (var)`, so on every path where
`string_from_lisp` hands out a buffer, that buffer is still live when the
operation returns.  Concretely, starting from a fresh world with no live
buffers: a `posacs_getenv` on the string "PATH" leaves buffer 0 live, a
`posacs_setenv` on strings "FOO"/"bar" leaves buffers 0 and 1 live, and a
`posacs_unsetenv` on "FOO" leaves buffer 0 live. -/
theorem posacs_buffer_leak_eval :
    st0.live = [] ∧
    (posacs_getenv st0 1 (fun _ => LispVal.str "PATH") 0).2.live = [0] ∧
    (posacs_setenv st0 2
        (fun i => if i = 0 then LispVal.str "FOO" else LispVal.str "bar") 0).2.live
      = [0, 1] ∧
    (posacs_unsetenv st0 1 (fun _ => LispVal.str "FOO") 0).2.live = [0] := by
  decide

/-- C2: round-trip law — whenever `posacs_setenv` on strings `k`, `v`
reports success (`t`), a subsequent `posacs_getenv` on `k` returns exactly
the string `v`. -/
theorem envset_envget_roundtrip (st : HostState) (n np p pp : Int)
    (args args1 : Nat → LispVal) (k v : String)
    (h0 : args 0 = LispVal.str k) (h1 : args 1 = LispVal.str v)
    (h2 : args1 0 = LispVal.str k)
    (ht : (posacs_setenv st n args p).1 = LISP_T) :
    (posacs_getenv (posacs_setenv st n args p).2 np args1 pp).1 = LispVal.str v :=
  setenv_t_getenv st n np p pp args args1 k v h0 h1 h2 ht

theorem envset_envget_roundtrip_witness :
    (posacs_getenv
       (posacs_setenv st0 2
          (fun i => if i = 0 then LispVal.str "FOO" else LispVal.str "bar") 0).2
       1 (fun _ => LispVal.str "FOO") 0).1 = LispVal.str "bar" :=
  envset_envget_roundtrip st0 2 1 0 0 _ _ "FOO" "bar" rfl rfl rfl (by decide)

/-- C3 counterexample: the claim quantifies over all strings `k`, but for
the invalid POSIX name `k = "="` both `setenv` calls fail with `EINVAL`
(both `posacs_setenv` calls return `nil`), and `posacs_getenv` on `k`
returns `nil`, not the string `v2 = "b"`. -/
theorem envset_overwrite_counterexample :
    ¬ ((posacs_getenv
          (posacs_setenv
             (posacs_setenv st0 2
                (fun i => if i = 0 then LispVal.str "=" else LispVal.str "a") 0).2
             2 (fun i => if i = 0 then LispVal.str "=" else LispVal.str "b") 0).2
          1 (fun _ => LispVal.str "=") 0).1 = LispVal.str "b") := by
  decide

/-- C3 amended: after `posacs_setenv (k, v1)` then `posacs_setenv (k, v2)`,
if the second `posacs_setenv` reports success (`t`) then `posacs_getenv (k)`
returns `v2`; and the second call does report success whenever `k` is a
valid environment name and no host or allocator fault is injected. -/
theorem envset_overwrite_amended (st : HostState) (n1 n2 np p1 p2 pp : Int)
    (argsA argsB args1 : Nat → LispVal) (k v1 v2 : String)
    (hA0 : argsA 0 = LispVal.str k) (hA1 : argsA 1 = LispVal.str v1)
    (hB0 : argsB 0 = LispVal.str k) (hB1 : argsB 1 = LispVal.str v2)
    (h2 : args1 0 = LispVal.str k) :
    ((posacs_setenv (posacs_setenv st n1 argsA p1).2 n2 argsB p2).1 = LISP_T →
      (posacs_getenv (posacs_setenv (posacs_setenv st n1 argsA p1).2 n2 argsB p2).2
         np args1 pp).1 = LispVal.str v2) ∧
    (validName k = true → st.copyOk1 = true → st.allocOk = true → st.copyOk2 = true →
      (posacs_setenv (posacs_setenv st n1 argsA p1).2 n2 argsB p2).1 = LISP_T) := by
  constructor
  · exact fun ht => setenv_t_getenv _ n2 np p2 pp argsB args1 k v2 hB0 hB1 h2 ht
  · intro hv hc1 ha hc2
    obtain ⟨f1, f2, f3⟩ := posacs_setenv_flags st n1 p1 argsA
    exact setenv_succeeds _ n2 p2 argsB k v2 hB0 hB1 hv (f1.trans hc1) (f2.trans ha)
      (f3.trans hc2)

theorem envset_overwrite_amended_witness :
    (posacs_getenv
       (posacs_setenv
          (posacs_setenv st0 2
             (fun i => if i = 0 then LispVal.str "FOO" else LispVal.str "a") 0).2
          2 (fun i => if i = 0 then LispVal.str "FOO" else LispVal.str "b") 0).2
       1 (fun _ => LispVal.str "FOO") 0).1 = LispVal.str "b" :=
  (envset_overwrite_amended st0 2 2 1 0 0 0
      (fun i => if i = 0 then LispVal.str "FOO" else LispVal.str "a")
      (fun i => if i = 0 then LispVal.str "FOO" else LispVal.str "b")
      (fun _ => LispVal.str "FOO") "FOO" "a" "b" rfl rfl rfl rfl rfl).1
    ((envset_overwrite_amended st0 2 2 1 0 0 0
        (fun i => if i = 0 then LispVal.str "FOO" else LispVal.str "a")
        (fun i => if i = 0 then LispVal.str "FOO" else LispVal.str "b")
        (fun _ => LispVal.str "FOO") "FOO" "a" "b" rfl rfl rfl rfl rfl).2
      (by decide) rfl rfl rfl)

/-- C4: after `posacs_unsetenv (k)` (well-formed environment, no injected
fault), `posacs_getenv (k)` yields `nil` regardless of how `k` was bound
before; and for any world whose environment table has no binding of `k`,
`posacs_getenv (k)` yields `nil`. -/
theorem envunset_envget_nil (st : HostState) (n np p pp : Int)
    (args args1 : Nat → LispVal) (k : String)
    (hwf : ∀ q ∈ st.envv, validName q.1 = true)
    (hc1 : st.copyOk1 = true) (ha : st.allocOk = true) (hc2 : st.copyOk2 = true)
    (h0 : args 0 = LispVal.str k) (h2 : args1 0 = LispVal.str k) :
    (posacs_getenv (posacs_unsetenv st n args p).2 np args1 pp).1 = LISP_NIL ∧
    ∀ st2 n2 p2 args2 k2, args2 0 = LispVal.str k2 → getenvP st2.envv k2 = none →
      (posacs_getenv st2 n2 args2 p2).1 = LISP_NIL :=
  ⟨unsetenv_getenv_nil st n np p pp args args1 k h0 h2 hwf hc1 ha hc2,
   fun st2 n2 p2 args2 k2 ha2 hn2 => posacs_getenv_none st2 n2 p2 args2 k2 ha2 hn2⟩

theorem envunset_envget_nil_witness :
    (posacs_getenv (posacs_unsetenv stFOO 1 (fun _ => LispVal.str "FOO") 0).2
       1 (fun _ => LispVal.str "FOO") 0).1 = LISP_NIL :=
  (envunset_envget_nil stFOO 1 1 0 0 _ _ "FOO" (by decide) rfl rfl rfl rfl rfl).1

/-- C5: `posacs_getenv` on a non-string argument returns `nil` and leaves
the world — the pending non-local exit included — untouched: the type
mismatch is a soft "no value", never a raised condition. -/
theorem envget_nonstring_nil (st : HostState) (n p : Int) (args : Nat → LispVal)
    (h : LISP_IS_STRING (args 0) = false) :
    posacs_getenv st n args p = (LISP_NIL, st) := by
  simp [posacs_getenv, h]

theorem envget_nonstring_nil_witness :
    posacs_getenv st0 1 (fun _ => LispVal.int 5) 0 = (LISP_NIL, st0) :=
  envget_nonstring_nil st0 1 0 _ rfl

/-- C6: whenever the first or the second argument of `posacs_setenv` is
not a string, the call returns `nil` and the environment table is left
exactly as it was: no binding is added, removed, or modified. -/
theorem envset_nonstring (st : HostState) (n p : Int) (args : Nat → LispVal)
    (h : LISP_IS_STRING (args 0) = false ∨ LISP_IS_STRING (args 1) = false) :
    (posacs_setenv st n args p).1 = LISP_NIL ∧
    (posacs_setenv st n args p).2.envv = st.envv := by
  obtain ⟨e, pe, lv, ni, c1, a, c2⟩ := st
  rcases h with h | h
  · simp [posacs_setenv, h]
  · cases h0 : args 0 with
    | str s =>
      cases c1 <;> cases a <;> cases c2 <;>
        simp_all [posacs_setenv, string_from_lisp, LISP_IS_STRING]
    | int m => simp [posacs_setenv, LISP_IS_STRING, h0]
    | sym s => simp [posacs_setenv, LISP_IS_STRING, h0]

theorem envset_nonstring_witness :
    (posacs_setenv st0 2
        (fun i => if i = 0 then LispVal.str "FOO" else LispVal.int 7) 0).1 = LISP_NIL ∧
    (posacs_setenv st0 2
        (fun i => if i = 0 then LispVal.str "FOO" else LispVal.int 7) 0).2.envv
      = st0.envv :=
  envset_nonstring st0 2 0 _ (Or.inr rfl)

/-- C7: inside `string_from_lisp`, an allocation failure (first copy
succeeded, `malloc` returned null) signals exactly the `memory-full`
non-local exit with `nil` payload and yields the null failure indicator;
and when the allocator does not fail, neither the helper nor any of the
three operations ever changes the pending non-local exit — every other
failure is reported only through a `nil` return value. -/
theorem memory_full_only_on_alloc_failure :
    (∀ st s, st.copyOk1 = true → st.allocOk = false →
      string_from_lisp st (LispVal.str s) =
        (none, { st with pendingExit := some ("memory-full", LISP_NIL) })) ∧
    (∀ st v, st.allocOk = true →
      (string_from_lisp st v).2.pendingExit = st.pendingExit) ∧
    (∀ st n p args, st.allocOk = true →
      (posacs_getenv st n args p).2.pendingExit = st.pendingExit) ∧
    (∀ st n p args, st.allocOk = true →
      (posacs_setenv st n args p).2.pendingExit = st.pendingExit) ∧
    (∀ st n p args, st.allocOk = true →
      (posacs_unsetenv st n args p).2.pendingExit = st.pendingExit) := by
  refine ⟨?_, ?_, ?_, ?_, ?_⟩
  · intro st s hc1 ha
    simp [string_from_lisp, hc1, ha]
  · intro st v ha
    obtain ⟨e, pe, lv, ni, c1, a, c2⟩ := st
    cases v <;> cases c1 <;> cases c2 <;> simp_all [string_from_lisp]
  · intro st n p args ha
    obtain ⟨e, pe, lv, ni, c1, a, c2⟩ := st
    cases h0 : args 0 <;> cases c1 <;> cases c2 <;>
      simp_all [posacs_getenv, string_from_lisp, LISP_IS_STRING]
  · intro st n p args ha
    obtain ⟨e, pe, lv, ni, c1, a, c2⟩ := st
    cases h0 : args 0 <;> cases h1 : args 1 <;> cases c1 <;> cases c2 <;>
      simp_all [posacs_setenv, string_from_lisp, LISP_IS_STRING, setenvP] <;>
      split <;> simp
  · intro st n p args ha
    obtain ⟨e, pe, lv, ni, c1, a, c2⟩ := st
    cases h0 : args 0 <;> cases c1 <;> cases c2 <;>
      simp_all [posacs_unsetenv, string_from_lisp, LISP_IS_STRING, unsetenvP] <;>
      split <;> simp

theorem memory_full_only_on_alloc_failure_witness :
    string_from_lisp
        { envv := [], pendingExit := none, live := [], nextId := 0,
          copyOk1 := true, allocOk := false, copyOk2 := true }
        (LispVal.str "FOO")
      = (none,
         { envv := [], pendingExit := some ("memory-full", LISP_NIL), live := [],
           nextId := 0, copyOk1 := true, allocOk := false, copyOk2 := true }) ∧
    (posacs_getenv st0 1 (fun _ => LispVal.str "FOO") 0).2.pendingExit
      = st0.pendingExit :=
  ⟨memory_full_only_on_alloc_failure.1 _ "FOO" rfl rfl,
   memory_full_only_on_alloc_failure.2.2.1 st0 1 0 (fun _ => LispVal.str "FOO") rfl⟩

/-- C8: `emacs_module_init` returns 1 when the outer runtime handle is
smaller than expected, 2 when (the outer handle being large enough) the
environment handle is smaller than expected, and otherwise returns 0
after binding exactly `posacs--getenv` (arity 1..1), `posacs--setenv`
(arity 2..2) and `posacs--unsetenv` (arity 1..1) in the global function
namespace, every other name keeping its previous binding. -/
theorem module_init_spec (rs sr es se : Nat) (ns : GlobalNS) :
    (rs < sr → emacs_module_init rs sr es se ns = (1, ns)) ∧
    (¬ rs < sr → es < se → emacs_module_init rs sr es se ns = (2, ns)) ∧
    (¬ rs < sr → ¬ es < se →
      (emacs_module_init rs sr es se ns).1 = 0 ∧
      nsLookup (emacs_module_init rs sr es se ns).2 "posacs--getenv" =
        some ⟨1, 1, ModFun.getenvF, "getenv internal"⟩ ∧
      nsLookup (emacs_module_init rs sr es se ns).2 "posacs--setenv" =
        some ⟨2, 2, ModFun.setenvF, "setenv internal"⟩ ∧
      nsLookup (emacs_module_init rs sr es se ns).2 "posacs--unsetenv" =
        some ⟨1, 1, ModFun.unsetenvF, "unsetenv internal"⟩ ∧
      ∀ m, m ≠ "posacs--getenv" → m ≠ "posacs--setenv" → m ≠ "posacs--unsetenv" →
        nsLookup (emacs_module_init rs sr es se ns).2 m = nsLookup ns m) := by
  refine ⟨fun h => by simp [emacs_module_init, h],
          fun h1 h2 => by simp [emacs_module_init, h1, h2],
          fun h1 h2 => ?_⟩
  simp only [emacs_module_init, if_neg h1, if_neg h2, funcs, List.foldl, bind_func]
  refine ⟨by trivial, ?_, ?_, ?_, ?_⟩
  · rw [nsLookup_fsetModel_other _ _ _ _ (by decide),
        nsLookup_fsetModel_other _ _ _ _ (by decide),
        nsLookup_fsetModel_same]
  · rw [nsLookup_fsetModel_other _ _ _ _ (by decide), nsLookup_fsetModel_same]
  · rw [nsLookup_fsetModel_same]
  · intro m hg hs hu
    rw [nsLookup_fsetModel_other _ _ _ _ hu, nsLookup_fsetModel_other _ _ _ _ hs,
        nsLookup_fsetModel_other _ _ _ _ hg]

theorem module_init_spec_witness :
    emacs_module_init 4 8 16 16 [] = (1, []) ∧
    emacs_module_init 8 8 8 16 [] = (2, []) ∧
    (emacs_module_init 8 8 16 16 []).1 = 0 ∧
    nsLookup (emacs_module_init 8 8 16 16 []).2 "posacs--setenv" =
      some ⟨2, 2, ModFun.setenvF, "setenv internal"⟩ ∧
    nsLookup (emacs_module_init 8 8 16 16 []).2 "some-other-function" =
      nsLookup [] "some-other-function" :=
  ⟨(module_init_spec 4 8 16 16 []).1 (by decide),
   (module_init_spec 8 8 8 16 []).2.1 (by decide) (by decide),
   ((module_init_spec 8 8 16 16 []).2.2 (by decide) (by decide)).1,
   ((module_init_spec 8 8 16 16 []).2.2 (by decide) (by decide)).2.2.1,
   ((module_init_spec 8 8 16 16 []).2.2 (by decide) (by decide)).2.2.2.2
     "some-other-function" (by decide) (by decide) (by decide)⟩

/-- C9: each operation is a function of the world state and of its
declared arguments only — `args 0` for `posacs_getenv`/`posacs_unsetenv`,
`args 0` and `args 1` for `posacs_setenv`; the nargs count and the opaque
data pointer are ignored, so two calls agreeing on the declared arguments
and the world return equal results. -/
theorem ops_depend_only_on_args (st : HostState) (n n2 p p2 : Int)
    (args args2 : Nat → LispVal) :
    (args 0 = args2 0 →
      posacs_getenv st n args p = posacs_getenv st n2 args2 p2) ∧
    (args 0 = args2 0 →
      posacs_unsetenv st n args p = posacs_unsetenv st n2 args2 p2) ∧
    (args 0 = args2 0 → args 1 = args2 1 →
      posacs_setenv st n args p = posacs_setenv st n2 args2 p2) := by
  refine ⟨fun h0 => ?_, fun h0 => ?_, fun h0 h1 => ?_⟩
  · unfold posacs_getenv
    rw [h0]
  · unfold posacs_unsetenv
    rw [h0]
  · unfold posacs_setenv
    rw [h0, h1]

theorem ops_depend_only_on_args_witness :
    posacs_getenv st0 1 (fun _ => LispVal.str "FOO") 0 =
      posacs_getenv st0 99 (fun i => if i = 0 then LispVal.str "FOO" else LispVal.int 3) 7 :=
  (ops_depend_only_on_args st0 1 99 0 7 (fun _ => LispVal.str "FOO")
      (fun i => if i = 0 then LispVal.str "FOO" else LispVal.int 3)).1 rfl

/-- C10: `posacs_setenv` inspects its arguments left to right.  When the
first argument is a string and the allocator fails while marshaling it
(first copy succeeded), the `memory-full` exit is signaled whatever the
second argument is — its type has not been checked yet; when the first
argument is not a string, the call short-circuits and the world, the
allocation counter `nextId` and the live-buffer list included, is
completely untouched. -/
theorem envset_left_to_right (st : HostState) (n p : Int) (args : Nat → LispVal)
    (k : String) :
    (args 0 = LispVal.str k → st.copyOk1 = true → st.allocOk = false →
      (posacs_setenv st n args p).2.pendingExit = some ("memory-full", LISP_NIL)) ∧
    (LISP_IS_STRING (args 0) = false → posacs_setenv st n args p = (LISP_NIL, st)) := by
  constructor
  · intro h0 hc1 ha
    simp [posacs_setenv, string_from_lisp, h0, hc1, ha, LISP_IS_STRING]
  · intro h
    simp [posacs_setenv, h]

theorem envset_left_to_right_witness :
    (posacs_setenv
        { envv := [], pendingExit := none, live := [], nextId := 0,
          copyOk1 := true, allocOk := false, copyOk2 := true }
        2 (fun i => if i = 0 then LispVal.str "FOO" else LispVal.int 7) 0).2.pendingExit
      = some ("memory-full", LISP_NIL) ∧
    posacs_setenv st0 2 (fun _ => LispVal.int 7) 0 = (LISP_NIL, st0) :=
  ⟨(envset_left_to_right
      { envv := [], pendingExit := none, live := [], nextId := 0,
        copyOk1 := true, allocOk := false, copyOk2 := true }
      2 0 (fun i => if i = 0 then LispVal.str "FOO" else LispVal.int 7) "FOO").1
      rfl rfl rfl,
   (envset_left_to_right st0 2 0 (fun _ => LispVal.int 7) "FOO").2 rfl⟩

end Posacs
